import Mathlib

/-!
# A shallow embedding of the `io-uring` crate core (`src/lib.rs`)

This file embeds the instance-construction, teardown and delegation logic of
the crate's `lib.rs` into Lean and proves the specification claims about it.

Conventions:
* Machine integers (`u32`, `usize`) are modelled as `Nat`; `usize` arithmetic
  that could in principle wrap is written with an explicit `% 2 ^ 64`.
* Syscalls and memory mappings are resolved by a `Kernel` oracle (a record of
  functions standing for the OS).  Every boundary interaction is recorded in an
  event trace, so claims about "exactly one mapping" or teardown order become
  statements about traces.
* Fallible operations return `Option` (`none` = the `io::Result` error case).
* The crate modules `util`, `squeue`, `cqueue` and `submit` are not under
  `src/`; the handful of facts about them that `lib.rs` relies on are modelled
  from the spec and marked `Modelled from the spec:` in their doc comments.
-/

namespace IoUringSpec

/-! ## Constants from `linux_io_uring_sys` (the kernel ABI) -/

/-- `sys::IORING_FEAT_SINGLE_MMAP` feature bit (1 << 0). -/
def IORING_FEAT_SINGLE_MMAP : Nat := 1

/-- `sys::IORING_SETUP_IOPOLL` flag bit (1 << 0). -/
def IORING_SETUP_IOPOLL : Nat := 1

/-- `sys::IORING_SETUP_SQPOLL` flag bit (1 << 1). -/
def IORING_SETUP_SQPOLL : Nat := 2

/-- `sys::IORING_SETUP_SQ_AFF` flag bit (1 << 2). -/
def IORING_SETUP_SQ_AFF : Nat := 4

/-- `sys::IORING_OFF_SQ_RING` mmap offset constant for the submission ring. -/
def IORING_OFF_SQ_RING : Nat := 0

/-- `sys::IORING_OFF_CQ_RING` mmap offset constant for the completion ring
(0x8000000). -/
def IORING_OFF_CQ_RING : Nat := 0x8000000

/-- `sys::IORING_OFF_SQES` mmap offset constant for the submission-entry
array (0x10000000). -/
def IORING_OFF_SQES : Nat := 0x10000000

/-- `mem::size_of::<u32>()`. -/
def sizeof_u32 : Nat := 4

/-- `mem::size_of::<sys::io_uring_cqe>()`: u64 user_data + i32 res + u32
flags = 16 bytes in the kernel ABI. -/
def sizeof_cqe : Nat := 16

/-- `mem::size_of::<sys::io_uring_sqe>()`: 64 bytes in the kernel ABI. -/
def sizeof_sqe : Nat := 64

/-! ## The parameter records (`sys::io_uring_params` and its offset tables) -/

/-- `sys::io_sqring_offsets`: the kernel's byte-offset table for the
submission ring region.  All fields are `u32`. -/
structure SqringOffsets where
  head : Nat
  tail : Nat
  ring_mask : Nat
  ring_entries : Nat
  flags : Nat
  dropped : Nat
  array : Nat
deriving DecidableEq, Repr

/-- `sys::io_cqring_offsets`: the kernel's byte-offset table for the
completion ring region.  All fields are `u32`. -/
structure CqringOffsets where
  head : Nat
  tail : Nat
  ring_mask : Nat
  ring_entries : Nat
  overflow : Nat
  cqes : Nat
deriving DecidableEq, Repr

/-- `sys::io_uring_params`.  All scalar fields are `u32`; the reserved words
are lumped into one opaque `resv` field since the code never touches them. -/
structure IoUringParams where
  sq_entries : Nat
  cq_entries : Nat
  flags : Nat
  sq_thread_cpu : Nat
  sq_thread_idle : Nat
  features : Nat
  resv : Nat
  sq_off : SqringOffsets
  cq_off : CqringOffsets
deriving DecidableEq, Repr

/-- The all-zero parameter record (`Default` for the C struct). -/
def IoUringParams.zero : IoUringParams :=
  { sq_entries := 0, cq_entries := 0, flags := 0, sq_thread_cpu := 0
    sq_thread_idle := 0, features := 0, resv := 0
    sq_off := ⟨0, 0, 0, 0, 0, 0, 0⟩
    cq_off := ⟨0, 0, 0, 0, 0, 0⟩ }

/-- All scalar fields of the record are genuine `u32` values. -/
def IoUringParams.wf (p : IoUringParams) : Prop :=
  p.sq_entries < 2 ^ 32 ∧ p.cq_entries < 2 ^ 32 ∧
  p.sq_off.array < 2 ^ 32 ∧ p.cq_off.cqes < 2 ^ 32

instance (p : IoUringParams) : Decidable p.wf := by
  unfold IoUringParams.wf; infer_instance

/-! ## Mapped regions, events and the kernel oracle -/

/-- Modelled from the spec: the `util` module is not under `src/`.  Per §4.1
a Mapped Region is "(base address, length, source descriptor, offset)"; the
base address is chosen by the OS and irrelevant here, so an `Mmap` value is
identified by its descriptor, offset and length. -/
structure Mmap where
  fd : Nat
  offset : Nat
  len : Nat
deriving DecidableEq, Repr

/-- `struct MemoryMap { sq_mmap: Mmap, sqe_mmap: Mmap, cq_mmap: Option<Mmap> }`
(fields in declaration order, which fixes their drop order). -/
structure MemoryMap where
  sq_mmap : Mmap
  sqe_mmap : Mmap
  cq_mmap : Option Mmap
deriving DecidableEq, Repr

/-- One observable interaction with the OS / one teardown step. -/
inductive Event where
  /-- the `io_uring_setup` syscall was issued with this entry count -/
  | setupCall (entries : Nat)
  /-- an `mmap` syscall was issued (descriptor, offset, length) -/
  | mmapCall (fd offset len : Nat)
  /-- a region was unmapped (descriptor, offset, length) -/
  | munmapCall (fd offset len : Nat)
  /-- the descriptor was closed (drop of `Fd`) -/
  | closeFd (fd : Nat)
  /-- the `SubmissionQueue` view was discarded -/
  | discardSQ
  /-- the `CompletionQueue` view was discarded -/
  | discardCQ
deriving DecidableEq, Repr

/-- The OS oracle: how each syscall issued by the crate resolves.
`setup` returns the descriptor together with the parameter record as
overwritten in place by the kernel (negotiated values), or `none` on failure;
`mmapOk` decides whether a mapping at a given offset/length succeeds;
`enterRes` and `registerRes` resolve the enter and register/unregister
syscalls. -/
structure Kernel where
  setup : Nat → IoUringParams → Option (Nat × IoUringParams)
  mmapOk : Nat → Nat → Bool
  enterRes : Nat → Nat → Nat → Nat → Option Nat
  registerRes : Nat → Nat → Option Unit
  unregisterRes : Nat → Nat → Option Unit
  pendingOf : Nat → Nat
  wakeupNeeded : Nat → Bool

/-- `Mmap::new(fd, offset, len)`: issues the mmap syscall (always recorded in
the trace) and succeeds iff the oracle lets it. -/
def Mmap.new (k : Kernel) (fd offset len : Nat) : List Event × Option Mmap :=
  ([Event.mmapCall fd offset len],
    if k.mmapOk offset len then some ⟨fd, offset, len⟩ else none)

/-- Dropping an `Mmap` unmaps it (its `Drop` impl calls munmap). -/
def Mmap.dropEvent (m : Mmap) : Event :=
  Event.munmapCall m.fd m.offset m.len

/-! ## Queue views

Modelled from the spec: the `squeue` and `cqueue` modules are not under
`src/`.  Per §3/§9 a queue view is "a thin structure carrying only non-owning
spans/offsets into those regions": we record which regions back the view and
the offset table it was constructed from. -/

/-- Modelled from the spec: `SubmissionQueue::new(&ring_mmap, &sqe_mmap, p)`
borrows a span of the ring region and of the entry-array region, addressed
through the negotiated submission offset table. -/
structure SubmissionQueue where
  ring : Mmap
  sqes : Mmap
  off : SqringOffsets
deriving DecidableEq, Repr

def SubmissionQueue.new (ring sqes : Mmap) (p : IoUringParams) :
    SubmissionQueue :=
  ⟨ring, sqes, p.sq_off⟩

/-- Modelled from the spec: `CompletionQueue::new(&ring_mmap, p)` borrows a
span of the ring region, addressed through the negotiated completion offset
table. -/
structure CompletionQueue where
  ring : Mmap
  off : CqringOffsets
deriving DecidableEq, Repr

def CompletionQueue.new (ring : Mmap) (p : IoUringParams) : CompletionQueue :=
  ⟨ring, p.cq_off⟩

/-! ## The instance -/

/-- `pub struct IoUring { fd, flags, memory: ManuallyDrop<MemoryMap>, sq, cq }`
(fields in declaration order, which fixes their drop order; the `ManuallyDrop`
wrapper matters only for teardown and is accounted for in `dropTrace`). -/
structure IoUring where
  fd : Nat
  flags : Nat
  memory : MemoryMap
  sq : SubmissionQueue
  cq : CompletionQueue
deriving DecidableEq, Repr

/-- `pub struct Params(sys::io_uring_params)`: newtype over the C record. -/
structure Params where
  val : IoUringParams
deriving DecidableEq, Repr

/-- `Params::default()`: the derived default zeroes the C record. -/
def Params.default : Params := ⟨IoUringParams.zero⟩

/-! ## `setup_queue` and `with_params` -/

/-- `sq_len` as computed in `setup_queue`:
`p.sq_off.array as usize + p.sq_entries as usize * mem::size_of::<u32>()`
(`usize` arithmetic, hence the explicit wrap at `2 ^ 64`). -/
def sq_len (p : IoUringParams) : Nat :=
  (p.sq_off.array + p.sq_entries * sizeof_u32) % 2 ^ 64

/-- `cq_len` as computed in `setup_queue`:
`p.cq_off.cqes as usize + p.cq_entries as usize * size_of::<io_uring_cqe>()`. -/
def cq_len (p : IoUringParams) : Nat :=
  (p.cq_off.cqes + p.cq_entries * sizeof_cqe) % 2 ^ 64

/-- `sqe_len` as computed in `setup_queue`:
`p.sq_entries as usize * mem::size_of::<sys::io_uring_sqe>()`. -/
def sqe_len (p : IoUringParams) : Nat :=
  (p.sq_entries * sizeof_sqe) % 2 ^ 64

/-- `setup_queue(fd, p)` from `IoUring::with_params`: maps the entry-array
region, then either one combined ring region (single-mmap feature) or two ring
regions, and builds the queue views.  Returns the syscall/drop trace together
with the result; on a failed mapping the regions already created are dropped
(unmapped) in reverse declaration order, as Rust's `?` operator does. -/
def setup_queue (k : Kernel) (fd : Nat) (p : IoUringParams) :
    List Event × Option (MemoryMap × SubmissionQueue × CompletionQueue) :=
  let (t1, sqeRes) := Mmap.new k fd IORING_OFF_SQES (sqe_len p)
  match sqeRes with
  | none => (t1, none)
  | some sqe_mmap =>
    if p.features &&& IORING_FEAT_SINGLE_MMAP ≠ 0 then
      let (t2, scqRes) :=
        Mmap.new k fd IORING_OFF_SQ_RING (max (sq_len p) (cq_len p))
      match scqRes with
      | none => (t1 ++ t2 ++ [sqe_mmap.dropEvent], none)
      | some scq_mmap =>
        let sq := SubmissionQueue.new scq_mmap sqe_mmap p
        let cq := CompletionQueue.new scq_mmap p
        let mm : MemoryMap :=
          { sq_mmap := scq_mmap, cq_mmap := none, sqe_mmap := sqe_mmap }
        (t1 ++ t2, some (mm, sq, cq))
    else
      let (t2, sqRes) := Mmap.new k fd IORING_OFF_SQ_RING (sq_len p)
      match sqRes with
      | none => (t1 ++ t2 ++ [sqe_mmap.dropEvent], none)
      | some sq_mmap =>
        let (t3, cqRes) := Mmap.new k fd IORING_OFF_CQ_RING (cq_len p)
        match cqRes with
        | none =>
          (t1 ++ t2 ++ t3 ++ [sq_mmap.dropEvent, sqe_mmap.dropEvent], none)
        | some cq_mmap =>
          let sq := SubmissionQueue.new sq_mmap sqe_mmap p
          let cq := CompletionQueue.new cq_mmap p
          let mm : MemoryMap :=
            { sq_mmap := sq_mmap, cq_mmap := some cq_mmap
              sqe_mmap := sqe_mmap }
          (t1 ++ t2 ++ t3, some (mm, sq, cq))

/-- `IoUring::with_params(entries, p)`.  Issues the setup syscall once; on
success the caller's `Params` record has been overwritten in place with the
kernel's negotiated record, `setup_queue` runs, and on its failure the `?`
operator drops the local `fd` (closing the descriptor).  Returns the trace,
the final state of the caller's `Params` record, and the instance (or `none`
for the `io::Result` error case). -/
def IoUring.with_params (k : Kernel) (entries : Nat) (pp : Params) :
    List Event × Params × Option IoUring :=
  match k.setup entries pp.val with
  | none => ([Event.setupCall entries], pp, none)
  | some (fd, p) =>
    let flags := p.flags
    match setup_queue k fd p with
    | (t, none) =>
      (Event.setupCall entries :: t ++ [Event.closeFd fd], ⟨p⟩, none)
    | (t, some (mm, sq, cq)) =>
      (Event.setupCall entries :: t, ⟨p⟩,
        some { fd := fd, flags := flags, memory := mm, sq := sq, cq := cq })

/-- `IoUring::new(entries)`: defaults a `Params` record and delegates. -/
def IoUring.new (k : Kernel) (entries : Nat) :
    List Event × Params × Option IoUring :=
  IoUring.with_params k entries Params.default

/-- `Params::build(entries)`: delegates to `with_params`. -/
def Params.build (k : Kernel) (pp : Params) (entries : Nat) :
    List Event × Params × Option IoUring :=
  IoUring.with_params k entries pp

/-! ## Teardown

Rust's drop glue for a value with a `Drop` impl first runs `Drop::drop`, then
drops the fields in declaration order.  For `IoUring`,
`impl Drop for IoUring` manually drops the `ManuallyDrop<MemoryMap>` holder;
the subsequent field drops are `fd` (its `Fd` wrapper closes the descriptor —
modelled from the spec, `util` is not under `src/`), `flags` (a `u32`, no-op),
`memory` (a `ManuallyDrop`, whose implicit drop is a no-op — this is why no
region is unmapped twice), `sq` and `cq` (borrow-only views, no resources). -/

/-- Drop glue of `MemoryMap`: fields unmapped in declaration order
(`sq_mmap`, `sqe_mmap`, `cq_mmap`). -/
def MemoryMap.dropTrace (mm : MemoryMap) : List Event :=
  [mm.sq_mmap.dropEvent, mm.sqe_mmap.dropEvent] ++
    (match mm.cq_mmap with
     | some m => [m.dropEvent]
     | none => [])

/-- The full teardown trace of an `IoUring`: `Drop::drop` (manual drop of the
memory holder) followed by the field drops in declaration order. -/
def IoUring.dropTrace (u : IoUring) : List Event :=
  u.memory.dropTrace ++ [Event.closeFd u.fd, Event.discardSQ, Event.discardCQ]

/-! ## The submitter and the delegating instance methods -/

/-- `pub struct Submitter<'_>` holds the borrowed descriptor, the flags word
and the submission-queue view. -/
structure Submitter where
  fd : Nat
  flags : Nat
  sq : SubmissionQueue
deriving DecidableEq, Repr

/-- `Submitter::new(fd, flags, sq)`. -/
def Submitter.new (fd flags : Nat) (sq : SubmissionQueue) : Submitter :=
  ⟨fd, flags, sq⟩

/-- `IoUring::as_submit`: builds a fresh `Submitter` from the stored
descriptor, flags and submission-queue view. -/
def IoUring.as_submit (u : IoUring) : Submitter :=
  Submitter.new u.fd u.flags u.sq

/-- Modelled from the spec: the `submit` module is not under `src/`.  §4.4:
`enter` issues the enter syscall for this submitter's descriptor with the
caller's raw arguments. -/
def Submitter.enter (k : Kernel) (s : Submitter)
    (to_submit min_complete flag : Nat) : Option Nat :=
  k.enterRes s.fd to_submit min_complete flag

/-- Modelled from the spec: §4.4, `submit_and_wait(want)` flushes the pending
submissions (a count living in the shared queue memory, resolved by the
oracle from the descriptor), adds the wake-kernel-thread flag when the shared
flags request it, and enters asking for `want` completions. -/
def Submitter.submit_and_wait (k : Kernel) (s : Submitter) (want : Nat) :
    Option Nat :=
  Submitter.enter k s (k.pendingOf s.fd) want
    (if k.wakeupNeeded s.fd then 1 else 0)

/-- Modelled from the spec: §4.4, `submit()` behaves like
`submit_and_wait(0)` (a fire-and-forget kick). -/
def Submitter.submit (k : Kernel) (s : Submitter) : Option Nat :=
  Submitter.submit_and_wait k s 0

/-- Modelled from the spec: §4.4, `register` forwards an opaque target to the
kernel's register syscall for this submitter's descriptor. -/
def Submitter.register (k : Kernel) (s : Submitter) (target : Nat) :
    Option Unit :=
  k.registerRes s.fd target

/-- Modelled from the spec: §4.4, `unregister` forwards an opaque target to
the kernel's unregister syscall for this submitter's descriptor. -/
def Submitter.unregister (k : Kernel) (s : Submitter) (target : Nat) :
    Option Unit :=
  k.unregisterRes s.fd target

/-! The public `IoUring` methods take `&self` (or, for `split`/`submission`/
`completion`, hand out `&mut` borrows of the `sq`/`cq` fields only).  Each is
embedded as a function returning its result together with the instance state
after the call, so that frame claims about `fd` and `flags` are statements
about these functions. -/

/-- `IoUring::register`: derives a submitter and delegates (`&self`). -/
def IoUring.register (k : Kernel) (u : IoUring) (target : Nat) :
    Option Unit × IoUring :=
  (Submitter.register k u.as_submit target, u)

/-- `IoUring::unregister`: derives a submitter and delegates (`&self`). -/
def IoUring.unregister (k : Kernel) (u : IoUring) (target : Nat) :
    Option Unit × IoUring :=
  (Submitter.unregister k u.as_submit target, u)

/-- `IoUring::enter`: derives a submitter and delegates (`&self`). -/
def IoUring.enter (k : Kernel) (u : IoUring)
    (to_submit min_complete flag : Nat) : Option Nat × IoUring :=
  (Submitter.enter k u.as_submit to_submit min_complete flag, u)

/-- `IoUring::submit`: derives a submitter and delegates (`&self`). -/
def IoUring.submit (k : Kernel) (u : IoUring) : Option Nat × IoUring :=
  (Submitter.submit k u.as_submit, u)

/-- `IoUring::submit_and_wait`: derives a submitter and delegates (`&self`). -/
def IoUring.submit_and_wait (k : Kernel) (u : IoUring) (want : Nat) :
    Option Nat × IoUring :=
  (Submitter.submit_and_wait k u.as_submit want, u)

/-- `IoUring::split`: returns a submitter built from the stored fields plus
the two queue views the `&mut` borrows give access to. -/
def IoUring.split (u : IoUring) :
    Submitter × SubmissionQueue × CompletionQueue :=
  (Submitter.new u.fd u.flags u.sq, u.sq, u.cq)

/-- The state after a caller writes through the `&mut` borrows handed out by
`split` (or by `submission`/`completion`): only the `sq`/`cq` fields are
reachable through those borrows. -/
def IoUring.writeQueues (u : IoUring) (sq : SubmissionQueue)
    (cq : CompletionQueue) : IoUring :=
  { u with sq := sq, cq := cq }

/-- `IoUring::submission`: the `&mut` accessor for the `sq` field. -/
def IoUring.submission (u : IoUring) : SubmissionQueue := u.sq

/-- `IoUring::completion`: the `&mut` accessor for the `cq` field. -/
def IoUring.completion (u : IoUring) : CompletionQueue := u.cq

/-! ## The `Params` builder toggles -/

/-- `Params::setup_iopoll`: `flags |= IORING_SETUP_IOPOLL`. -/
def Params.setup_iopoll (pp : Params) : Params :=
  ⟨{ pp.val with flags := pp.val.flags ||| IORING_SETUP_IOPOLL }⟩

/-- `Params::setup_sqpoll(idle)`: `flags |= IORING_SETUP_SQPOLL`, and when
`idle` is `Some n` also `sq_thread_idle = n`. -/
def Params.setup_sqpoll (pp : Params) (idle : Option Nat) : Params :=
  let p := { pp.val with flags := pp.val.flags ||| IORING_SETUP_SQPOLL }
  match idle with
  | some n => ⟨{ p with sq_thread_idle := n }⟩
  | none => ⟨p⟩

/-- `Params::setup_sqpoll_cpu(n)`: `flags |= IORING_SETUP_SQ_AFF` and
`sq_thread_cpu = n`. -/
def Params.setup_sqpoll_cpu (pp : Params) (n : Nat) : Params :=
  ⟨{ pp.val with
      flags := pp.val.flags ||| IORING_SETUP_SQ_AFF
      sq_thread_cpu := n }⟩

/-- `Params::sq_entries`. -/
def Params.sq_entries (pp : Params) : Nat := pp.val.sq_entries

/-- `Params::cq_entries`. -/
def Params.cq_entries (pp : Params) : Nat := pp.val.cq_entries

/-! ## Trace observations used by the claims -/

/-- Is this event an mmap syscall at the given offset? -/
def Event.isMmapAt (off : Nat) : Event → Bool
  | Event.mmapCall _ o _ => o == off
  | _ => false

/-- Is this event an mmap syscall (any offset)? -/
def Event.isMmap : Event → Bool
  | Event.mmapCall _ _ _ => true
  | _ => false

/-- Is this event a munmap of the given region? -/
def Event.isMunmapOf (m : Mmap) : Event → Bool
  | Event.munmapCall f o l => f == m.fd && o == m.offset && l == m.len
  | _ => false

/-- Is this event a munmap (any region)? -/
def Event.isMunmap : Event → Bool
  | Event.munmapCall _ _ _ => true
  | _ => false

/-- Is this event a close of the descriptor? -/
def Event.isClose : Event → Bool
  | Event.closeFd _ => true
  | _ => false

/-- Is this event the discard of a queue view? -/
def Event.isDiscard : Event → Bool
  | Event.discardSQ => true
  | Event.discardCQ => true
  | _ => false

/-- Is this event the setup syscall? -/
def Event.isSetup : Event → Bool
  | Event.setupCall _ => true
  | _ => false

/-- A trace consists of view discards, then munmaps, then closes — the
teardown order the specification describes (each group in order). -/
def viewsFirstOrder (t : List Event) : Prop :=
  t = t.filter Event.isDiscard ++ t.filter Event.isMunmap ++
      t.filter Event.isClose

instance (t : List Event) : Decidable (viewsFirstOrder t) := by
  unfold viewsFirstOrder; infer_instance

/-- A trace consists of munmaps, then closes, then view discards — the
teardown order the code actually produces. -/
def unmapFirstOrder (t : List Event) : Prop :=
  t = t.filter Event.isMunmap ++ t.filter Event.isClose ++
      t.filter Event.isDiscard

instance (t : List Event) : Decidable (unmapFirstOrder t) := by
  unfold unmapFirstOrder; infer_instance

/-! ## Concrete oracles and runs used to witness the theorems -/

/-- A negotiated parameter record with realistic field offsets: the kernel
granted 8 submission entries, 16 completion entries and the single-mmap
feature. -/
def negotiatedA : IoUringParams :=
  { sq_entries := 8, cq_entries := 16, flags := 0, sq_thread_cpu := 0
    sq_thread_idle := 0, features := IORING_FEAT_SINGLE_MMAP, resv := 0
    sq_off := ⟨0, 64, 256, 264, 276, 272, 384⟩
    cq_off := ⟨128, 192, 260, 268, 284, 320⟩ }

/-- The same negotiation without the single-mmap feature. -/
def negotiatedB : IoUringParams :=
  { negotiatedA with features := 0 }

/-- An OS oracle granting descriptor 3 and `negotiatedA`, with every mapping
succeeding. -/
def kernelA : Kernel :=
  { setup := fun _ _ => some (3, negotiatedA)
    mmapOk := fun _ _ => true
    enterRes := fun _ _ _ _ => some 0
    registerRes := fun _ _ => some ()
    unregisterRes := fun _ _ => some ()
    pendingOf := fun _ => 0
    wakeupNeeded := fun _ => false }

/-- The same oracle negotiating `negotiatedB` (dual-mapping layout). -/
def kernelB : Kernel :=
  { kernelA with setup := fun _ _ => some (3, negotiatedB) }

/-- The trace of the successful construction against `kernelA`:
`sqe_len negotiatedA = 512`, `sq_len = 416`, `cq_len = 576`, and the combined
region gets `max 416 576 = 576` bytes. -/
def traceA : List Event :=
  [Event.setupCall 8, Event.mmapCall 3 IORING_OFF_SQES 512,
   Event.mmapCall 3 IORING_OFF_SQ_RING 576]

/-- The instance built against `kernelA` (single-mapping layout). -/
def instanceA : IoUring :=
  { fd := 3, flags := 0
    memory := ⟨⟨3, IORING_OFF_SQ_RING, 576⟩, ⟨3, IORING_OFF_SQES, 512⟩, none⟩
    sq := ⟨⟨3, IORING_OFF_SQ_RING, 576⟩, ⟨3, IORING_OFF_SQES, 512⟩,
           negotiatedA.sq_off⟩
    cq := ⟨⟨3, IORING_OFF_SQ_RING, 576⟩, negotiatedA.cq_off⟩ }

/-- The success condition of `with_params`: the setup syscall succeeds and
every mapping the negotiated layout requires succeeds. -/
def constructionOk (k : Kernel) (entries : Nat) (pp : Params) : Prop :=
  ∃ fd p, k.setup entries pp.val = some (fd, p) ∧
    k.mmapOk IORING_OFF_SQES (sqe_len p) = true ∧
    ((p.features &&& IORING_FEAT_SINGLE_MMAP ≠ 0 ∧
      k.mmapOk IORING_OFF_SQ_RING (max (sq_len p) (cq_len p)) = true) ∨
     (p.features &&& IORING_FEAT_SINGLE_MMAP = 0 ∧
      k.mmapOk IORING_OFF_SQ_RING (sq_len p) = true ∧
      k.mmapOk IORING_OFF_CQ_RING (cq_len p) = true))

/-! ## Helper lemmas -/

theorem ite_some_none_inj {α : Type} {c : Prop} [inst : Decidable c] {a b : α}
    (h : (if c then some a else none) = some b) : b = a ∧ c := by
  split at h
  · exact ⟨(Option.some.inj h).symm, by assumption⟩
  · exact absurd h (by simp)

/-- Characterization of a successful `setup_queue` run: the trace and the
memory map of each of the two layouts, together with the mapping
successes it took. -/
theorem setup_queue_shape (k : Kernel) (fd : Nat) (p : IoUringParams)
    (t : List Event) (mm : MemoryMap) (sq : SubmissionQueue)
    (cq : CompletionQueue)
    (h : setup_queue k fd p = (t, some (mm, sq, cq))) :
    k.mmapOk IORING_OFF_SQES (sqe_len p) = true ∧
    ((p.features &&& IORING_FEAT_SINGLE_MMAP ≠ 0 ∧
      k.mmapOk IORING_OFF_SQ_RING (max (sq_len p) (cq_len p)) = true ∧
      t = [Event.mmapCall fd IORING_OFF_SQES (sqe_len p),
           Event.mmapCall fd IORING_OFF_SQ_RING (max (sq_len p) (cq_len p))] ∧
      mm = ⟨⟨fd, IORING_OFF_SQ_RING, max (sq_len p) (cq_len p)⟩,
            ⟨fd, IORING_OFF_SQES, sqe_len p⟩, none⟩) ∨
     (p.features &&& IORING_FEAT_SINGLE_MMAP = 0 ∧
      k.mmapOk IORING_OFF_SQ_RING (sq_len p) = true ∧
      k.mmapOk IORING_OFF_CQ_RING (cq_len p) = true ∧
      t = [Event.mmapCall fd IORING_OFF_SQES (sqe_len p),
           Event.mmapCall fd IORING_OFF_SQ_RING (sq_len p),
           Event.mmapCall fd IORING_OFF_CQ_RING (cq_len p)] ∧
      mm = ⟨⟨fd, IORING_OFF_SQ_RING, sq_len p⟩,
            ⟨fd, IORING_OFF_SQES, sqe_len p⟩,
            some ⟨fd, IORING_OFF_CQ_RING, cq_len p⟩⟩)) := by
  unfold setup_queue Mmap.new at h
  simp only at h
  split at h
  · simp at h
  · rename_i sqeRes sqe_mmap hsqe
    obtain ⟨hsqe', hsqeOk⟩ := ite_some_none_inj hsqe
    refine ⟨hsqeOk, ?_⟩
    split at h
    · rename_i hfeat
      split at h
      · simp at h
      · rename_i scqRes scq_mmap hscq
        obtain ⟨hscq', hscqOk⟩ := ite_some_none_inj hscq
        simp only [List.cons_append, List.nil_append, Prod.mk.injEq,
          Option.some.injEq] at h
        obtain ⟨ht, hmm, -, -⟩ := h
        subst hsqe' hscq'
        exact Or.inl ⟨hfeat, hscqOk, ht.symm, hmm.symm⟩
    · rename_i hfeat
      split at h
      · simp at h
      · rename_i sqRes sq_mmap hsqm
        obtain ⟨hsqm', hsqOk⟩ := ite_some_none_inj hsqm
        split at h
        · simp at h
        · rename_i cqRes cq_mmap hcqm
          obtain ⟨hcqm', hcqOk⟩ := ite_some_none_inj hcqm
          simp only [List.cons_append, List.nil_append, Prod.mk.injEq,
            Option.some.injEq] at h
          obtain ⟨ht, hmm, -, -⟩ := h
          subst hsqe' hsqm' hcqm'
          exact Or.inr ⟨by simpa using hfeat, hsqOk, hcqOk, ht.symm, hmm.symm⟩

/-- Characterization of a successful `with_params` run: the setup syscall
succeeded, the caller's record now holds the negotiated record, the stored
descriptor and flags come from it, and the rest of the trace is a successful
`setup_queue` run for the stored memory map and views. -/
theorem with_params_shape (k : Kernel) (entries : Nat) (pp pp' : Params)
    (t : List Event) (u : IoUring)
    (h : IoUring.with_params k entries pp = (t, pp', some u)) :
    ∃ fd p ts, k.setup entries pp.val = some (fd, p) ∧ pp' = ⟨p⟩ ∧
      u.fd = fd ∧ u.flags = p.flags ∧
      t = Event.setupCall entries :: ts ∧
      setup_queue k fd p = (ts, some (u.memory, u.sq, u.cq)) := by
  unfold IoUring.with_params at h
  split at h
  · simp at h
  · rename_i fd p hsetup
    simp only at h
    split at h
    · simp at h
    · rename_i ts mm sq cq hq
      simp only [Prod.mk.injEq, Option.some.injEq] at h
      obtain ⟨ht, hpp, hu⟩ := h
      refine ⟨fd, p, ts, hsetup, hpp.symm, ?_, ?_, ht.symm, ?_⟩
      · rw [← hu]
      · rw [← hu]
      · rw [← hu]; exact hq

/-- `setup_queue` never issues the setup syscall. -/
theorem setup_queue_no_setup (k : Kernel) (fd : Nat) (p : IoUringParams) :
    ((setup_queue k fd p).1.filter Event.isSetup) = [] := by
  unfold setup_queue Mmap.new
  simp only
  repeat' split
  all_goals simp [Event.isSetup, Mmap.dropEvent]

/-! ## The claims -/

/-- C2 (counterexample): against a concrete kernel oracle, construction
succeeds and yields `instanceA`, but its teardown trace does NOT discard the
queue views first: `Drop for IoUring` unmaps the memory holder first, the
field drops then close the descriptor before the `sq`/`cq` fields are
discarded, so the claimed order (views, then regions, then descriptor) is
violated. -/
theorem claim_C2_counterexample :
    IoUring.with_params kernelA 8 Params.default =
      (traceA, ⟨negotiatedA⟩, some instanceA) ∧
    ¬ viewsFirstOrder instanceA.dropTrace := by
  refine ⟨by decide, by decide⟩

/-- C2 (amended): on destruction of an `IoUring`, the mapped regions are
unmapped first (by the manual drop of the `ManuallyDrop<MemoryMap>` holder in
`Drop::drop`), then the descriptor is closed, and the queue views are
discarded last; exactly one close and exactly the two view discards occur. -/
theorem claim_C2_teardown_order (u : IoUring) :
    unmapFirstOrder u.dropTrace ∧
    u.dropTrace.filter Event.isClose = [Event.closeFd u.fd] ∧
    u.dropTrace.filter Event.isDiscard = [Event.discardSQ, Event.discardCQ] := by
  obtain ⟨fd, flags, ⟨sqm, sqem, cqm⟩, sq, cq⟩ := u
  cases cqm <;>
    simp [IoUring.dropTrace, MemoryMap.dropTrace, Mmap.dropEvent,
      unmapFirstOrder, Event.isMunmap, Event.isClose, Event.isDiscard]

/-- C4: the region byte lengths computed during setup are exactly
`sq_off.array + sq_entries * size_of(u32)`,
`cq_off.cqes + cq_entries * size_of(cqe)` and
`sq_entries * size_of(sqe)`: for genuine `u32` inputs the `usize` arithmetic
cannot wrap. -/
theorem claim_C4_region_lengths (p : IoUringParams) (hwf : p.wf) :
    sq_len p = p.sq_off.array + p.sq_entries * sizeof_u32 ∧
    cq_len p = p.cq_off.cqes + p.cq_entries * sizeof_cqe ∧
    sqe_len p = p.sq_entries * sizeof_sqe := by
  obtain ⟨h1, h2, h3, h4⟩ := hwf
  have e32 : (2 : Nat) ^ 32 = 4294967296 := by norm_num
  rw [e32] at h1 h2 h3 h4
  have e64 : (2 : Nat) ^ 64 = 18446744073709551616 := by norm_num
  unfold sq_len cq_len sqe_len sizeof_u32 sizeof_cqe sizeof_sqe
  refine ⟨Nat.mod_eq_of_lt ?_, Nat.mod_eq_of_lt ?_, Nat.mod_eq_of_lt ?_⟩ <;>
    rw [e64] <;> omega

/-- C4 witness: the lengths at the concrete negotiated record. -/
theorem claim_C4_witness :
    sq_len negotiatedA =
      negotiatedA.sq_off.array + negotiatedA.sq_entries * sizeof_u32 ∧
    cq_len negotiatedA =
      negotiatedA.cq_off.cqes + negotiatedA.cq_entries * sizeof_cqe ∧
    sqe_len negotiatedA = negotiatedA.sq_entries * sizeof_sqe :=
  claim_C4_region_lengths negotiatedA (by decide)

/-- C7: no public operation modifies the stored descriptor or flags word:
`register`, `unregister`, `enter`, `submit` and `submit_and_wait` take the
instance by shared reference, and the mutable borrows handed out by
`split`/`submission`/`completion` reach only the queue-view fields. -/
theorem claim_C7_fd_flags_immutable (k : Kernel) (u : IoUring)
    (target a b c want : Nat) (sq : SubmissionQueue) (cq : CompletionQueue) :
    ((IoUring.register k u target).2.fd = u.fd ∧
      (IoUring.register k u target).2.flags = u.flags) ∧
    ((IoUring.unregister k u target).2.fd = u.fd ∧
      (IoUring.unregister k u target).2.flags = u.flags) ∧
    ((IoUring.enter k u a b c).2.fd = u.fd ∧
      (IoUring.enter k u a b c).2.flags = u.flags) ∧
    ((IoUring.submit k u).2.fd = u.fd ∧
      (IoUring.submit k u).2.flags = u.flags) ∧
    ((IoUring.submit_and_wait k u want).2.fd = u.fd ∧
      (IoUring.submit_and_wait k u want).2.flags = u.flags) ∧
    ((u.writeQueues sq cq).fd = u.fd ∧ (u.writeQueues sq cq).flags = u.flags) :=
  ⟨⟨rfl, rfl⟩, ⟨rfl, rfl⟩, ⟨rfl, rfl⟩, ⟨rfl, rfl⟩, ⟨rfl, rfl⟩, rfl, rfl⟩

/-- C8: the submitter is stateless and re-derivable: `as_submit` rebuilds it
from the stored descriptor, flags and submission-queue view, `split` yields
the very same submitter, and every delegating method of `IoUring` equals the
corresponding `Submitter` method applied to `as_submit` — so any two
submitters derived from one instance are equal and behave identically. -/
theorem claim_C8_submitter_stateless (k : Kernel) (u : IoUring)
    (target a b c want : Nat) :
    u.as_submit = Submitter.new u.fd u.flags u.sq ∧
    (u.split).1 = u.as_submit ∧
    (IoUring.register k u target).1 = Submitter.register k u.as_submit target ∧
    (IoUring.unregister k u target).1 =
      Submitter.unregister k u.as_submit target ∧
    (IoUring.enter k u a b c).1 = Submitter.enter k u.as_submit a b c ∧
    (IoUring.submit k u).1 = Submitter.submit k u.as_submit ∧
    (IoUring.submit_and_wait k u want).1 =
      Submitter.submit_and_wait k u.as_submit want :=
  ⟨rfl, rfl, rfl, rfl, rfl, rfl, rfl⟩

/-- C9: each builder toggle writes only its designated fields:
`setup_iopoll` only ors the IOPOLL bit into `flags`; `setup_sqpoll` ors the
SQPOLL bit and writes `sq_thread_idle` only when the idle hint is present;
`setup_sqpoll_cpu` ors the SQ_AFF bit and writes `sq_thread_cpu`; every other
field is unchanged, and the toggles chain. -/
theorem claim_C9_toggle_frames (pp : Params) (idle : Option Nat) (n : Nat) :
    ((pp.setup_iopoll).val.flags = pp.val.flags ||| IORING_SETUP_IOPOLL ∧
     (pp.setup_iopoll).val.sq_entries = pp.val.sq_entries ∧
     (pp.setup_iopoll).val.cq_entries = pp.val.cq_entries ∧
     (pp.setup_iopoll).val.sq_thread_cpu = pp.val.sq_thread_cpu ∧
     (pp.setup_iopoll).val.sq_thread_idle = pp.val.sq_thread_idle ∧
     (pp.setup_iopoll).val.features = pp.val.features ∧
     (pp.setup_iopoll).val.resv = pp.val.resv ∧
     (pp.setup_iopoll).val.sq_off = pp.val.sq_off ∧
     (pp.setup_iopoll).val.cq_off = pp.val.cq_off) ∧
    ((pp.setup_sqpoll idle).val.flags =
        pp.val.flags ||| IORING_SETUP_SQPOLL ∧
     ((pp.setup_sqpoll idle).val.sq_thread_idle =
        match idle with
        | some m => m
        | none => pp.val.sq_thread_idle) ∧
     (pp.setup_sqpoll idle).val.sq_entries = pp.val.sq_entries ∧
     (pp.setup_sqpoll idle).val.cq_entries = pp.val.cq_entries ∧
     (pp.setup_sqpoll idle).val.sq_thread_cpu = pp.val.sq_thread_cpu ∧
     (pp.setup_sqpoll idle).val.features = pp.val.features ∧
     (pp.setup_sqpoll idle).val.resv = pp.val.resv ∧
     (pp.setup_sqpoll idle).val.sq_off = pp.val.sq_off ∧
     (pp.setup_sqpoll idle).val.cq_off = pp.val.cq_off) ∧
    ((pp.setup_sqpoll_cpu n).val.flags =
        pp.val.flags ||| IORING_SETUP_SQ_AFF ∧
     (pp.setup_sqpoll_cpu n).val.sq_thread_cpu = n ∧
     (pp.setup_sqpoll_cpu n).val.sq_entries = pp.val.sq_entries ∧
     (pp.setup_sqpoll_cpu n).val.cq_entries = pp.val.cq_entries ∧
     (pp.setup_sqpoll_cpu n).val.sq_thread_idle = pp.val.sq_thread_idle ∧
     (pp.setup_sqpoll_cpu n).val.features = pp.val.features ∧
     (pp.setup_sqpoll_cpu n).val.resv = pp.val.resv ∧
     (pp.setup_sqpoll_cpu n).val.sq_off = pp.val.sq_off ∧
     (pp.setup_sqpoll_cpu n).val.cq_off = pp.val.cq_off) ∧
    ((pp.setup_iopoll).setup_sqpoll_cpu n).val.flags =
      pp.val.flags ||| IORING_SETUP_IOPOLL ||| IORING_SETUP_SQ_AFF := by
  cases idle <;>
    simp [Params.setup_iopoll, Params.setup_sqpoll, Params.setup_sqpoll_cpu]

/-- C10: the three entry points are the same construction: `new` is
`with_params` on a defaulted record, and `build` delegates to
`with_params`. -/
theorem claim_C10_constructors_equiv (k : Kernel) (entries : Nat)
    (pp : Params) :
    IoUring.new k entries = IoUring.with_params k entries Params.default ∧
    Params.build k pp entries = IoUring.with_params k entries pp :=
  ⟨rfl, rfl⟩

/-- C1: on every successful construction, the entry-array region is mapped at
the SQES offset with the computed length and exactly one mmap is issued at
that offset; with the single-mmap feature negotiated, exactly one ring region
is mapped, at the submission-ring offset with length
`max sq_len cq_len`, and no completion-ring region exists (`cq_mmap = none`);
without the feature, two ring regions are mapped, one per ring. -/
theorem claim_C1_mapping_layout (k : Kernel) (entries : Nat)
    (pp pp' : Params) (t : List Event) (u : IoUring)
    (h : IoUring.with_params k entries pp = (t, pp', some u)) :
    (u.memory.sqe_mmap = ⟨u.fd, IORING_OFF_SQES, sqe_len pp'.val⟩ ∧
     (t.filter (Event.isMmapAt IORING_OFF_SQES)).length = 1) ∧
    (pp'.val.features &&& IORING_FEAT_SINGLE_MMAP ≠ 0 →
      u.memory.cq_mmap = none ∧
      u.memory.sq_mmap =
        ⟨u.fd, IORING_OFF_SQ_RING, max (sq_len pp'.val) (cq_len pp'.val)⟩ ∧
      (t.filter fun e => e.isMmapAt IORING_OFF_SQ_RING ||
        e.isMmapAt IORING_OFF_CQ_RING).length = 1) ∧
    (pp'.val.features &&& IORING_FEAT_SINGLE_MMAP = 0 →
      u.memory.sq_mmap = ⟨u.fd, IORING_OFF_SQ_RING, sq_len pp'.val⟩ ∧
      u.memory.cq_mmap = some ⟨u.fd, IORING_OFF_CQ_RING, cq_len pp'.val⟩ ∧
      (t.filter (Event.isMmapAt IORING_OFF_SQ_RING)).length = 1 ∧
      (t.filter (Event.isMmapAt IORING_OFF_CQ_RING)).length = 1) := by
  obtain ⟨fd, p, ts, hsetup, hpp, hufd, -, ht, hq⟩ :=
    with_params_shape k entries pp pp' t u h
  subst hpp hufd ht
  rcases setup_queue_shape k u.fd p ts u.memory u.sq u.cq hq with
    ⟨-, ⟨hfeat, -, hts, hmm⟩ | ⟨hfeat, -, -, hts, hmm⟩⟩
  · subst hts
    refine ⟨⟨by rw [hmm], ?_⟩,
      fun _ => ⟨by rw [hmm], by rw [hmm], ?_⟩,
      fun h0 => absurd h0 hfeat⟩ <;>
      simp [Event.isMmapAt, IORING_OFF_SQES, IORING_OFF_SQ_RING,
        IORING_OFF_CQ_RING]
  · subst hts
    refine ⟨⟨by rw [hmm], ?_⟩,
      fun h0 => absurd hfeat h0,
      fun _ => ⟨by rw [hmm], by rw [hmm], ?_, ?_⟩⟩ <;>
      simp [Event.isMmapAt, IORING_OFF_SQES, IORING_OFF_SQ_RING,
        IORING_OFF_CQ_RING]

/-- C1 witness: the concrete single-mmap construction against `kernelA`. -/
theorem claim_C1_witness :
    instanceA.memory.cq_mmap = none ∧
    instanceA.memory.sq_mmap = ⟨3, IORING_OFF_SQ_RING, 576⟩ ∧
    (traceA.filter (Event.isMmapAt IORING_OFF_SQES)).length = 1 := by
  have h := claim_C1_mapping_layout kernelA 8 Params.default ⟨negotiatedA⟩
    traceA instanceA (by decide) 
  refine ⟨(h.2.1 (by decide)).1, ?_, h.1.2⟩
  have := (h.2.1 (by decide)).2.1
  simpa using this

/-- C5: for every constructed instance, each mapped region is released
exactly once on destruction: the unmap events of the teardown trace are
precisely one per held region (ring, entry array, and completion ring when it
exists), and the regions are pairwise distinct, so no region is unmapped
twice and none is skipped. -/
theorem claim_C5_unmap_once (k : Kernel) (entries : Nat) (pp pp' : Params)
    (t : List Event) (u : IoUring)
    (h : IoUring.with_params k entries pp = (t, pp', some u)) :
    (u.dropTrace.filter Event.isMunmap =
      u.memory.sq_mmap.dropEvent :: u.memory.sqe_mmap.dropEvent ::
        (match u.memory.cq_mmap with
         | some m => [m.dropEvent]
         | none => [])) ∧
    u.memory.sq_mmap ≠ u.memory.sqe_mmap ∧
    (∀ m, u.memory.cq_mmap = some m →
      m ≠ u.memory.sq_mmap ∧ m ≠ u.memory.sqe_mmap) := by
  obtain ⟨fd, p, ts, hsetup, hpp, hufd, -, ht, hq⟩ :=
    with_params_shape k entries pp pp' t u h
  rcases setup_queue_shape k fd p ts u.memory u.sq u.cq hq with
    ⟨-, ⟨-, -, -, hmm⟩ | ⟨-, -, -, -, hmm⟩⟩
  · refine ⟨?_, ?_, ?_⟩
    · simp [IoUring.dropTrace, MemoryMap.dropTrace, hmm, Mmap.dropEvent,
        Event.isMunmap]
    · rw [hmm]
      simp [Mmap.mk.injEq, IORING_OFF_SQ_RING, IORING_OFF_SQES]
    · intro m hm
      rw [hmm] at hm
      simp at hm
  · refine ⟨?_, ?_, ?_⟩
    · simp [IoUring.dropTrace, MemoryMap.dropTrace, hmm, Mmap.dropEvent,
        Event.isMunmap]
    · rw [hmm]
      simp [Mmap.mk.injEq, IORING_OFF_SQ_RING, IORING_OFF_SQES]
    · intro m hm
      rw [hmm] at hm
      simp only [Option.some.injEq] at hm
      subst hm
      rw [hmm]
      constructor <;>
        simp [Mmap.mk.injEq, IORING_OFF_SQ_RING, IORING_OFF_SQES,
          IORING_OFF_CQ_RING]

/-- C5 witness: the concrete instance built against `kernelA`. -/
theorem claim_C5_witness :
    instanceA.dropTrace.filter Event.isMunmap =
      [instanceA.memory.sq_mmap.dropEvent,
       instanceA.memory.sqe_mmap.dropEvent] ∧
    instanceA.memory.sq_mmap ≠ instanceA.memory.sqe_mmap := by
  have h := claim_C5_unmap_once kernelA 8 Params.default ⟨negotiatedA⟩
    traceA instanceA (by decide)
  refine ⟨?_, h.2.1⟩
  rw [h.1]
  rfl

/-- C6: every call of `with_params` issues the setup syscall exactly once,
and on success the caller's record holds the kernel's negotiated record, so
`sq_entries`/`cq_entries` read the kernel's entry counts and the layout
decision (no separate completion-ring region) follows the negotiated,
post-setup feature bit. -/
theorem claim_C6_setup_once_overwrite (k : Kernel) (entries : Nat)
    (pp pp' : Params) (t : List Event) (u : IoUring) :
    ((IoUring.with_params k entries pp).1.filter Event.isSetup =
      [Event.setupCall entries]) ∧
    (IoUring.with_params k entries pp = (t, pp', some u) →
      ∃ fd p, k.setup entries pp.val = some (fd, p) ∧ pp' = ⟨p⟩ ∧
        pp'.sq_entries = p.sq_entries ∧ pp'.cq_entries = p.cq_entries ∧
        u.flags = p.flags ∧
        (u.memory.cq_mmap = none ↔
          p.features &&& IORING_FEAT_SINGLE_MMAP ≠ 0)) := by
  constructor
  · unfold IoUring.with_params
    split
    · simp [Event.isSetup, List.filter]
    · rename_i fd p hsetup
      simp only
      split
      · rename_i ts hq
        have hts := setup_queue_no_setup k fd p
        rw [hq] at hts
        simp [Event.isSetup, List.filter_append, hts]
      · rename_i ts mm sq cq hq
        have hts := setup_queue_no_setup k fd p
        rw [hq] at hts
        simp [Event.isSetup, hts]
  · intro h
    obtain ⟨fd, p, ts, hsetup, hpp, -, huflags, ht, hq⟩ :=
      with_params_shape k entries pp pp' t u h
    subst hpp
    rcases setup_queue_shape k fd p ts u.memory u.sq u.cq hq with
      ⟨-, ⟨hfeat, -, -, hmm⟩ | ⟨hfeat, -, -, -, hmm⟩⟩
    · exact ⟨fd, p, hsetup, rfl, rfl, rfl, huflags, by simp [hmm, hfeat]⟩
    · exact ⟨fd, p, hsetup, rfl, rfl, rfl, huflags, by simp [hmm, hfeat]⟩

/-- C3: construction is all-or-nothing: `with_params` yields an instance
exactly when the setup syscall and every mapping the negotiated layout
requires succeed; when the setup syscall or any mapping fails the result is
the error case and no instance — partial or otherwise — is returned. -/
theorem claim_C3_no_partial_instance (k : Kernel) (entries : Nat)
    (pp : Params) :
    (∃ u, (IoUring.with_params k entries pp).2.2 = some u) ↔
      constructionOk k entries pp := by
  constructor
  · rintro ⟨u, hu⟩
    have heq : IoUring.with_params k entries pp =
        ((IoUring.with_params k entries pp).1,
         (IoUring.with_params k entries pp).2.1, some u) := by
      rw [← hu]
    obtain ⟨fd, p, ts, hsetup, -, -, -, -, hq⟩ :=
      with_params_shape k entries pp _ _ u heq
    obtain ⟨hsqeOk, hcase⟩ :=
      setup_queue_shape k fd p ts u.memory u.sq u.cq hq
    refine ⟨fd, p, hsetup, hsqeOk, ?_⟩
    rcases hcase with ⟨h1, h2, -, -⟩ | ⟨h1, h2, h3, -, -⟩
    · exact Or.inl ⟨h1, h2⟩
    · exact Or.inr ⟨h1, h2, h3⟩
  · rintro ⟨fd, p, hsetup, hsqe, hcase⟩
    unfold IoUring.with_params
    rw [hsetup]
    simp only
    unfold setup_queue Mmap.new
    simp only [hsqe, if_true]
    rcases hcase with ⟨hf, hOk⟩ | ⟨hf, hOk1, hOk2⟩
    · rw [if_pos hf]
      simp [hOk]
    · rw [if_neg (by simp [hf])]
      simp [hOk1, hOk2]
